import Mathlib

/-!
Verification of the ms-runloop RPC runtime core.

This file gives a shallow embedding, in Lean 4, of the runtime pieces the
specification talks about: the SPSC ring buffer (include/rpc/RingBuffer.h),
the 24-byte little-endian frame codec (src/FrameCodec.cpp), the client call
and outgoing write paths (src/Client.cpp), and the service accept handshake,
request dispatch and broadcast paths (src/RunLoop.cpp, Service part).

Machine integers are modelled as Nat with explicit reduction modulo 2^32
wherever the C++ code relies on uint32_t wraparound.  Byte buffers are
Lists of Nat.  Blocking points (the condition-variable wait in call, the
success of a signal-byte send on the control socket) are passed in as
explicit oracle arguments, so each code path is a pure, executable function.
-/

namespace MsRunloop

/-- Modulus of a 32-bit unsigned integer (2^32). -/
def U32Mod : Nat := 4294967296

/-- Unsigned 32-bit subtraction with wraparound, as computed by a C++
expression of the form a - b when both operands are uint32_t. -/
def usub32 (a b : Nat) : Nat := (a + U32Mod - b % U32Mod) % U32Mod

/-- Reinterpretation of a uint32_t value as a signed int32, the effect of
the C++ cast static_cast int applied to a uint32_t (two's complement). -/
def toInt32 (a : Nat) : Int :=
  if a % U32Mod < 2147483648 then ((a % U32Mod : Nat) : Int)
  else ((a % U32Mod : Nat) : Int) - (U32Mod : Int)

/-- Reinterpretation of a signed int as a uint32_t value, the effect of the
C++ cast static_cast uint32_t applied to an int (two's complement). -/
def intToU32 (s : Int) : Nat := (s % (U32Mod : Int)).toNat

/-! Protocol constants from include/rpc/Types.h. -/

/-- Current protocol version (Types.h). -/
def PROTOCOL_VERSION : Nat := 1

/-- Frame flag bit for a request (Types.h). -/
def FRAME_REQUEST : Nat := 1

/-- Frame flag bit for a response (Types.h). -/
def FRAME_RESPONSE : Nat := 2

/-- Frame flag bit for an outgoing one-way message (Types.h). -/
def FRAME_NOTIFY : Nat := 4

/-- Success status code (Types.h). -/
def RPC_SUCCESS : Int := 0

/-- Peer gone or transport failed (Types.h). -/
def RPC_ERR_DISCONNECTED : Int := -1

/-- Call timed out (Types.h). -/
def RPC_ERR_TIMEOUT : Int := -2

/-- No handler installed / unknown method (Types.h). -/
def RPC_ERR_INVALID_METHOD : Int := -4

/-- Outbound ring had insufficient space (Types.h). -/
def RPC_ERR_RING_FULL : Int := -6

/-- Pending call failed because the endpoint is shutting down (Types.h). -/
def RPC_ERR_STOPPED : Int := -7

/-! The 24-byte frame header (Types.h) and its codec (FrameCodec.cpp). -/

/-- Frame header struct from Types.h.  Fields version and flags are
uint16_t in C++, the rest uint32_t; here each field is a Nat and the
well-formedness predicate below records the C++ type bounds. -/
structure FrameHeader where
  version : Nat
  flags : Nat
  serviceId : Nat
  messageId : Nat
  seq : Nat
  payloadBytes : Nat
  aux : Nat
deriving DecidableEq, Repr

/-- Bounds imposed by the C++ field types of FrameHeader. -/
structure FrameHeader.WF (h : FrameHeader) : Prop where
  version_lt : h.version < 65536
  flags_lt : h.flags < 65536
  serviceId_lt : h.serviceId < U32Mod
  messageId_lt : h.messageId < U32Mod
  seq_lt : h.seq < U32Mod
  payloadBytes_lt : h.payloadBytes < U32Mod
  aux_lt : h.aux < U32Mod

/-- Little-endian byte serialization of a uint16_t value. -/
def le16 (v : Nat) : List Nat := [v % 256, v / 256 % 256]

/-- Little-endian byte serialization of a uint32_t value. -/
def le32 (v : Nat) : List Nat :=
  [v % 256, v / 256 % 256, v / 65536 % 256, v / 16777216 % 256]

/-- Little-endian read of a uint16_t at byte offset i. -/
def rd16 (b : List Nat) (i : Nat) : Nat := b.getD i 0 + 256 * b.getD (i + 1) 0

/-- Little-endian read of a uint32_t at byte offset i. -/
def rd32 (b : List Nat) (i : Nat) : Nat :=
  b.getD i 0 + 256 * b.getD (i + 1) 0 + 65536 * b.getD (i + 2) 0
    + 16777216 * b.getD (i + 3) 0

/-- FrameCodec.cpp encodeFrameHeader: the 24-byte little-endian wire image
of a frame header (fields at offsets 0, 2, 4, 8, 12, 16, 20). -/
def encodeFrameHeader (h : FrameHeader) : List Nat :=
  le16 h.version ++ le16 h.flags ++ le32 h.serviceId ++ le32 h.messageId
    ++ le32 h.seq ++ le32 h.payloadBytes ++ le32 h.aux

/-- FrameCodec.cpp decodeFrameHeader: returns none (C++ false) when fewer
than 24 bytes are supplied, otherwise reads the seven little-endian
fields back. -/
def decodeFrameHeader (b : List Nat) : Option FrameHeader :=
  if b.length < 24 then none
  else some
    { version := rd16 b 0
      flags := rd16 b 2
      serviceId := rd32 b 4
      messageId := rd32 b 8
      seq := rd32 b 12
      payloadBytes := rd32 b 16
      aux := rd32 b 20 }

/-- Encoding always yields exactly 24 bytes, the C++ sizeof(FrameHeader). -/
theorem encodeFrameHeader_length (h : FrameHeader) :
    (encodeFrameHeader h).length = 24 := by
  simp [encodeFrameHeader, le16, le32]

/-- C3: decodeFrameHeader inverts encodeFrameHeader on every header whose
fields are within their C++ type bounds, and decodeFrameHeader rejects
every buffer shorter than 24 bytes. -/
theorem decode_encode_roundtrip (h : FrameHeader) (hwf : h.WF) :
    decodeFrameHeader (encodeFrameHeader h) = some h ∧
    ∀ b : List Nat, b.length < 24 → decodeFrameHeader b = none := by
  obtain ⟨v, fl, si, mi, sq, pb, ax⟩ := h
  obtain ⟨h1, h2, h3, h4, h5, h6, h7⟩ := hwf
  simp only [U32Mod] at h1 h2 h3 h4 h5 h6 h7
  refine ⟨?_, ?_⟩
  · simp only [encodeFrameHeader, le16, le32, List.cons_append, List.nil_append]
    simp only [decodeFrameHeader, rd16, rd32, List.length_cons, List.length_nil,
      List.getD_cons_zero, List.getD_cons_succ]
    norm_num [FrameHeader.mk.injEq]
    refine ⟨?_, ?_, ?_, ?_, ?_, ?_, ?_⟩ <;> omega
  · intro b hb
    simp [decodeFrameHeader, hb]

/-- Witness for C3 at the concrete header used in spec scenario 4. -/
theorem decode_encode_roundtrip_witness :
    (FrameHeader.WF ⟨1, 1, 3, 8, 11, 17, 55⟩) ∧
    (decodeFrameHeader (encodeFrameHeader ⟨1, 1, 3, 8, 11, 17, 55⟩) =
        some ⟨1, 1, 3, 8, 11, 17, 55⟩ ∧
      ∀ b : List Nat, b.length < 24 → decodeFrameHeader b = none) :=
  ⟨⟨by decide, by decide, by decide, by decide, by decide, by decide, by decide⟩,
    decode_encode_roundtrip ⟨1, 1, 3, 8, 11, 17, 55⟩
      ⟨by decide, by decide, by decide, by decide, by decide, by decide, by decide⟩⟩

/-! The SPSC ring buffer (include/rpc/RingBuffer.h). -/

/-- Lock-free SPSC ring buffer state (RingBuffer.h).  size is the
compile-time template parameter Size, head and tail are the uint32 control
words of the control block, data the byte array of length Size. -/
structure RingBuffer where
  size : Nat
  head : Nat
  tail : Nat
  data : List Nat
deriving DecidableEq, Repr

/-- State of a freshly constructed ring buffer of the given Size: zeroed
control words and data array. -/
def RingBuffer.init (size : Nat) : RingBuffer :=
  ⟨size, 0, 0, List.replicate size 0⟩

/-- RingBuffer.h reset(): zero head and tail. -/
def RingBuffer.reset (rb : RingBuffer) : RingBuffer :=
  { rb with head := 0, tail := 0 }

/-- RingBuffer.h writeAvailable(): Size - (head - tail), uint32 arithmetic. -/
def RingBuffer.writeAvailable (rb : RingBuffer) : Nat :=
  usub32 rb.size (usub32 rb.head rb.tail)

/-- RingBuffer.h readAvailable(): head - tail, uint32 arithmetic. -/
def RingBuffer.readAvailable (rb : RingBuffer) : Nat := usub32 rb.head rb.tail

/-- RingBuffer.h capacity(): the template parameter Size. -/
def RingBuffer.capacity (rb : RingBuffer) : Nat := rb.size

/-- Effect of std::memcpy(dst + offset, src, src.length) on a byte array. -/
def memcpyAt (dst : List Nat) (offset : Nat) (src : List Nat) : List Nat :=
  dst.take offset ++ src ++ dst.drop (offset + src.length)

/-- RingBuffer.h write(): return false without any mutation when
Size - (head - tail) < len, otherwise copy the bytes — splitting into two
memcpys exactly when the write crosses the wrap point — and publish the new
head (stored as a uint32).  The index mask head & (Size - 1) is kept
verbatim. -/
def RingBuffer.write (rb : RingBuffer) (src : List Nat) : Bool × RingBuffer :=
  let len := src.length
  if usub32 rb.size (usub32 rb.head rb.tail) < len then (false, rb)
  else
    let offset := rb.head &&& (rb.size - 1)
    let firstChunk := rb.size - offset
    let newData :=
      if len ≤ firstChunk then memcpyAt rb.data offset src
      else memcpyAt (memcpyAt rb.data offset (src.take firstChunk)) 0
        (src.drop firstChunk)
    (true, { rb with head := (rb.head + len) % U32Mod, data := newData })

/-- RingBuffer.h peek(): copy the next len bytes out without advancing tail;
none models the C++ false return when fewer than len bytes are readable. -/
def RingBuffer.peek (rb : RingBuffer) (len : Nat) : Option (List Nat) :=
  if usub32 rb.head rb.tail < len then none
  else
    let offset := rb.tail &&& (rb.size - 1)
    let firstChunk := rb.size - offset
    some (if len ≤ firstChunk then (rb.data.drop offset).take len
      else (rb.data.drop offset).take firstChunk ++ rb.data.take (len - firstChunk))

/-- RingBuffer.h read(): the same copy as peek, then advance tail by len. -/
def RingBuffer.read (rb : RingBuffer) (len : Nat) :
    Option (List Nat × RingBuffer) :=
  if usub32 rb.head rb.tail < len then none
  else
    let offset := rb.tail &&& (rb.size - 1)
    let firstChunk := rb.size - offset
    let out := if len ≤ firstChunk then (rb.data.drop offset).take len
      else (rb.data.drop offset).take firstChunk ++ rb.data.take (len - firstChunk)
    some (out, { rb with tail := (rb.tail + len) % U32Mod })

/-- RingBuffer.h skip(): advance tail by len without copying. -/
def RingBuffer.skip (rb : RingBuffer) (len : Nat) : Option RingBuffer :=
  if usub32 rb.head rb.tail < len then none
  else some { rb with tail := (rb.tail + len) % U32Mod }

/-- Structural well-formedness of a ring buffer state: the constraints the
C++ template enforces (power-of-two Size that fits in uint32, a data array
of Size bytes, uint32 control words) together with the reachable-state
invariant that at most Size bytes are in flight. -/
structure RingBuffer.WF (rb : RingBuffer) : Prop where
  size_pow : ∃ k, rb.size = 2 ^ k
  size_lt : rb.size < U32Mod
  head_lt : rb.head < U32Mod
  tail_lt : rb.tail < U32Mod
  data_len : rb.data.length = rb.size
  used_le : usub32 rb.head rb.tail ≤ rb.size

/-- One ring-buffer operation (a reset, a write attempt, a successful read,
or a successful skip).  A failed read or skip leaves the state unchanged,
and a peek never changes it, so those are covered by the reflexive closure
of this relation. -/
inductive RingStep : RingBuffer → RingBuffer → Prop
  | reset (rb : RingBuffer) : RingStep rb rb.reset
  | write (rb : RingBuffer) (src : List Nat) : RingStep rb (rb.write src).2
  | read (rb : RingBuffer) (len : Nat) (out : List Nat) (rb' : RingBuffer) :
      rb.read len = some (out, rb') → RingStep rb rb'
  | skip (rb : RingBuffer) (len : Nat) (rb' : RingBuffer) :
      RingBuffer.skip rb len = some rb' → RingStep rb rb'

/-- States reachable from a start state by ring-buffer operations. -/
inductive RingReachable (start : RingBuffer) : RingBuffer → Prop
  | refl : RingReachable start start
  | step {b c : RingBuffer} :
      RingReachable start b → RingStep b c → RingReachable start c

/-- Arithmetic invariant used for C5: the size is fixed, both control words
are uint32 values, and the in-flight byte count never exceeds Size. -/
def RingInv (size : Nat) (rb : RingBuffer) : Prop :=
  rb.size = size ∧ rb.head < U32Mod ∧ rb.tail < U32Mod ∧
    usub32 rb.head rb.tail ≤ rb.size

/-- Every ring-buffer operation preserves the arithmetic invariant. -/
theorem ringStep_inv (size : Nat) (hsize : size < U32Mod) {a b : RingBuffer}
    (h : RingStep a b) (ha : RingInv size a) : RingInv size b := by
  obtain ⟨ha0, ha1, ha2, ha3⟩ := ha
  cases h with
  | reset =>
    refine ⟨ha0, ?_, ?_, ?_⟩ <;>
      simp only [RingBuffer.reset, usub32, U32Mod] at * <;> omega
  | write src =>
    by_cases hg : usub32 a.size (usub32 a.head a.tail) < src.length
    · simp only [RingBuffer.write, if_pos hg]
      exact ⟨ha0, ha1, ha2, ha3⟩
    · simp only [RingBuffer.write, if_neg hg]
      refine ⟨ha0, ?_, ha2, ?_⟩ <;>
        simp only [usub32, U32Mod] at * <;> omega
  | read len out c heq =>
    simp only [RingBuffer.read] at heq
    split at heq
    · exact absurd heq (by simp)
    · rename_i hg
      obtain ⟨rfl⟩ : b = { a with tail := (a.tail + len) % U32Mod } := by
        simpa using (congrArg (fun o => Option.map Prod.snd o) heq).symm
      refine ⟨ha0, ha1, ?_, ?_⟩ <;>
        simp only [usub32, U32Mod] at * <;> omega
  | skip len c heq =>
    simp only [RingBuffer.skip] at heq
    split at heq
    · exact absurd heq (by simp)
    · rename_i hg
      obtain ⟨rfl⟩ : b = { a with tail := (a.tail + len) % U32Mod } := by
        simpa using heq.symm
      refine ⟨ha0, ha1, ?_, ?_⟩ <;>
        simp only [usub32, U32Mod] at * <;> omega

/-- C5: in every state reachable from a freshly initialized ring buffer by
reset, write, read, peek and skip operations, readAvailable plus
writeAvailable equals capacity.  The Size hypotheses are the ones the C++
template enforces (a nonzero power of two representable in uint32). -/
theorem ringBuffer_conservation (size : Nat) (_hpow : ∃ k, size = 2 ^ k)
    (hlt : size < U32Mod) (rb : RingBuffer)
    (h : RingReachable (RingBuffer.init size) rb) :
    rb.readAvailable + rb.writeAvailable = rb.capacity := by
  have inv : RingInv size rb := by
    induction h with
    | refl =>
      refine ⟨rfl, ?_, ?_, ?_⟩ <;>
        simp only [RingBuffer.init, usub32, U32Mod] <;> omega
    | step hr hs ih => exact ringStep_inv size hlt hs ih
  obtain ⟨h0, h1, h2, h3⟩ := inv
  simp only [RingBuffer.readAvailable, RingBuffer.writeAvailable,
    RingBuffer.capacity, usub32, U32Mod] at *
  omega

/-- Witness for C5: a short concrete run (write then read) on an 8-byte
ring, checked end to end. -/
theorem ringBuffer_conservation_witness :
    (∃ k, (8 : Nat) = 2 ^ k) ∧ (8 : Nat) < U32Mod ∧
      ((RingBuffer.init 8).readAvailable + (RingBuffer.init 8).writeAvailable =
        (RingBuffer.init 8).capacity) :=
  ⟨⟨3, rfl⟩, by decide,
    ringBuffer_conservation 8 ⟨3, rfl⟩ (by decide) (RingBuffer.init 8)
      RingReachable.refl⟩

/-- Length is preserved by an in-bounds memcpy. -/
theorem memcpyAt_length (dst src : List Nat) (offset : Nat)
    (h : offset + src.length ≤ dst.length) :
    (memcpyAt dst offset src).length = dst.length := by
  simp only [memcpyAt, List.length_append, List.length_take, List.length_drop]
  omega

/-- A byte inside the copied range reads back from src. -/
theorem memcpyAt_get_inside (dst src : List Nat) (offset i : Nat)
    (h : offset + src.length ≤ dst.length) (hi : i < src.length) :
    (memcpyAt dst offset src)[offset + i]? = src[i]? := by
  have hto : (dst.take offset).length = offset := by
    simp only [List.length_take]
    omega
  unfold memcpyAt
  rw [List.getElem?_append_left (by simp only [List.length_append, hto]; omega),
    List.getElem?_append_right (by omega), hto, Nat.add_sub_cancel_left]

/-- A byte outside the copied range is untouched by a memcpy. -/
theorem memcpyAt_get_outside (dst src : List Nat) (offset j : Nat)
    (h : offset + src.length ≤ dst.length)
    (hj : j < offset ∨ offset + src.length ≤ j) :
    (memcpyAt dst offset src)[j]? = dst[j]? := by
  have hto : (dst.take offset).length = offset := by
    simp only [List.length_take]
    omega
  unfold memcpyAt
  rcases hj with hj | hj
  · rw [List.getElem?_append_left (by simp only [List.length_append, hto]; omega),
      List.getElem?_append_left (by omega), List.getElem?_take_of_lt hj]
  · have hlen : (dst.take offset ++ src).length = offset + src.length := by
      simp only [List.length_append, hto]
    rw [List.getElem?_append_right (by rw [hlen]; omega), hlen,
      List.getElem?_drop]
    congr 1
    omega

/-- C4: a write longer than writeAvailable fails and leaves the whole state
(head, tail and data array) unchanged; a write of at most writeAvailable
succeeds, advances head by the length written (as a uint32), leaves tail
alone, stores byte i of the source at ring index (head mod Size + i) mod
Size — split across the wrap point when needed — and touches no other byte
of the data array. -/
theorem ringBuffer_write_spec (rb : RingBuffer) (src : List Nat)
    (hwf : rb.WF) :
    (rb.writeAvailable < src.length → rb.write src = (false, rb)) ∧
    (src.length ≤ rb.writeAvailable →
      (rb.write src).1 = true ∧
      (rb.write src).2.head = (rb.head + src.length) % U32Mod ∧
      (rb.write src).2.tail = rb.tail ∧
      (rb.write src).2.size = rb.size ∧
      (rb.write src).2.data.length = rb.size ∧
      (∀ i, i < src.length →
        (rb.write src).2.data[(rb.head % rb.size + i) % rb.size]? = src[i]?) ∧
      (∀ j, j < rb.size →
        (∀ i, i < src.length → j ≠ (rb.head % rb.size + i) % rb.size) →
        (rb.write src).2.data[j]? = rb.data[j]?)) := by
  obtain ⟨⟨k, hk⟩, hslt, hhlt, htlt, hdlen, hule⟩ := hwf
  have hS0 : 0 < rb.size := by rw [hk]; exact Nat.pos_pow_of_pos k (by omega)
  have hmask : rb.head &&& (rb.size - 1) = rb.head % rb.size := by
    rw [hk]
    exact Nat.and_pow_two_sub_one_eq_mod rb.head k
  have hwa : rb.writeAvailable = rb.size - usub32 rb.head rb.tail := by
    simp only [RingBuffer.writeAvailable, usub32, U32Mod] at *
    omega
  constructor
  · intro hlt
    simp only [RingBuffer.writeAvailable] at hlt
    simp only [RingBuffer.write, if_pos hlt]
  · intro hle
    have hg : ¬ usub32 rb.size (usub32 rb.head rb.tail) < src.length := by
      simp only [RingBuffer.writeAvailable] at hle
      omega
    have hlenS : src.length ≤ rb.size := by omega
    simp only [RingBuffer.write, if_neg hg, hmask]
    set S := rb.size with hSdef
    set o := rb.head % S with hodef
    have ho : o < S := Nat.mod_lt _ hS0
    refine ⟨trivial, trivial, trivial, trivial, ?_, ?_, ?_⟩
    · by_cases hsplit : src.length ≤ S - o
      · rw [if_pos hsplit]
        rw [memcpyAt_length _ _ _ (by omega)]
        exact hdlen
      · rw [if_neg hsplit]
        rw [memcpyAt_length _ _ _ ?hb1, memcpyAt_length _ _ _ ?hb2]
        · exact hdlen
        case hb1 =>
          simp only [List.length_drop,
            memcpyAt_length _ _ _ (by simp only [List.length_take]; omega : o + (src.take (S - o)).length ≤ rb.data.length)]
          omega
        case hb2 =>
          simp only [List.length_take]
          omega
    · intro i hi
      by_cases hsplit : src.length ≤ S - o
      · rw [if_pos hsplit]
        have hiS : o + i < S := by omega
        rw [Nat.mod_eq_of_lt hiS]
        exact memcpyAt_get_inside rb.data src o i (by omega) hi
      · rw [if_neg hsplit]
        have htklen : (src.take (S - o)).length = S - o := by
          simp only [List.length_take]
          omega
        have hinlen : (memcpyAt rb.data o (src.take (S - o))).length = rb.data.length :=
          memcpyAt_length _ _ _ (by rw [htklen]; omega)
        have hdplen : (src.drop (S - o)).length = src.length - (S - o) := by
          simp only [List.length_drop]
        by_cases hifc : i < S - o
        · have hiS : o + i < S := by omega
          rw [Nat.mod_eq_of_lt hiS]
          rw [memcpyAt_get_outside _ _ _ _ (by rw [hinlen, hdplen, hdlen]; omega)
            (Or.inr (by rw [hdplen]; omega))]
          have := memcpyAt_get_inside rb.data (src.take (S - o)) o i
            (by rw [htklen, hdlen]; omega) (by rw [htklen]; omega)
          rw [this, List.getElem?_take_of_lt hifc]
        · have hmodeq : (o + i) % S = i - (S - o) := by
            rw [Nat.mod_eq_sub_mod (by omega), Nat.mod_eq_of_lt (by omega)]
            omega
          rw [hmodeq]
          have h0i : i - (S - o) = 0 + (i - (S - o)) := by omega
          rw [h0i, memcpyAt_get_inside _ _ 0 _
            (by rw [hinlen, hdplen, hdlen]; omega) (by rw [hdplen]; omega)]
          rw [List.getElem?_drop]
          congr 1
          omega
    · intro j hj hnot
      by_cases hsplit : src.length ≤ S - o
      · rw [if_pos hsplit]
        have hrange : j < o ∨ o + src.length ≤ j := by
          by_contra hcon
          push_neg at hcon
          obtain ⟨hc1, hc2⟩ := hcon
          exact hnot (j - o) (by omega)
            (by rw [Nat.mod_eq_of_lt (by omega)]; omega)
        exact memcpyAt_get_outside rb.data src o j (by omega) hrange
      · rw [if_neg hsplit]
        have htklen : (src.take (S - o)).length = S - o := by
          simp only [List.length_take]
          omega
        have hinlen : (memcpyAt rb.data o (src.take (S - o))).length = rb.data.length :=
          memcpyAt_length _ _ _ (by rw [htklen]; omega)
        have hdplen : (src.drop (S - o)).length = src.length - (S - o) := by
          simp only [List.length_drop]
        have hjlow : src.length - (S - o) ≤ j := by
          by_contra hcon
          push_neg at hcon
          refine hnot (j + (S - o)) (by omega) ?_
          rw [Nat.mod_eq_sub_mod (by omega), Nat.mod_eq_of_lt (by omega)]
          omega
        have hjhigh : j < o := by
          by_contra hcon
          push_neg at hcon
          refine hnot (j - o) (by omega) ?_
          rw [Nat.mod_eq_of_lt (by omega)]
          omega
        rw [memcpyAt_get_outside _ _ _ _ (by rw [hinlen, hdplen, hdlen]; omega)
          (Or.inr (by rw [hdplen]; omega))]
        exact memcpyAt_get_outside rb.data (src.take (S - o)) o j
          (by rw [htklen, hdlen]; omega) (Or.inl hjhigh)

/-- Witness for C4: a 3-byte write into a fresh 8-byte ring. -/
theorem ringBuffer_write_spec_witness :
    (RingBuffer.WF (RingBuffer.init 8)) ∧
    ((RingBuffer.init 8).writeAvailable < ([1, 2, 3] : List Nat).length →
      (RingBuffer.init 8).write [1, 2, 3] = (false, RingBuffer.init 8)) ∧
    (([1, 2, 3] : List Nat).length ≤ (RingBuffer.init 8).writeAvailable →
      ((RingBuffer.init 8).write [1, 2, 3]).1 = true ∧
      ((RingBuffer.init 8).write [1, 2, 3]).2.head =
        ((RingBuffer.init 8).head + ([1, 2, 3] : List Nat).length) % U32Mod ∧
      ((RingBuffer.init 8).write [1, 2, 3]).2.tail = (RingBuffer.init 8).tail ∧
      ((RingBuffer.init 8).write [1, 2, 3]).2.size = (RingBuffer.init 8).size ∧
      ((RingBuffer.init 8).write [1, 2, 3]).2.data.length = (RingBuffer.init 8).size ∧
      (∀ i, i < ([1, 2, 3] : List Nat).length →
        ((RingBuffer.init 8).write [1, 2, 3]).2.data[((RingBuffer.init 8).head % (RingBuffer.init 8).size + i) % (RingBuffer.init 8).size]? = ([1, 2, 3] : List Nat)[i]?) ∧
      (∀ j, j < (RingBuffer.init 8).size →
        (∀ i, i < ([1, 2, 3] : List Nat).length →
          j ≠ ((RingBuffer.init 8).head % (RingBuffer.init 8).size + i) % (RingBuffer.init 8).size) →
        ((RingBuffer.init 8).write [1, 2, 3]).2.data[j]? = (RingBuffer.init 8).data[j]?)) :=
  have hwf : RingBuffer.WF (RingBuffer.init 8) :=
    ⟨⟨3, rfl⟩, by decide, by decide, by decide, by decide, by decide⟩
  ⟨hwf, ringBuffer_write_spec (RingBuffer.init 8) [1, 2, 3] hwf⟩

/-! Client call state (include/rpc/Client.h, src/Client.cpp). -/

/-- PendingCall from Client.h: completion flag, status code and response
payload.  The condition variable is represented by the oracle arguments of
Client.call. -/
structure PendingCall where
  done : Bool
  status : Int
  response : List Nat
deriving DecidableEq, Repr

/-- The pending-call table m_pending of Client.h, keyed by seq. -/
abbrev PendingTable : Type := List (Nat × PendingCall)

/-- Effect of the C++ map assignment m_pending[seq] = p (insert or
overwrite). -/
def pendingInsert (t : PendingTable) (seq : Nat) (p : PendingCall) :
    PendingTable :=
  t.filter (fun e => e.1 != seq) ++ [(seq, p)]

/-- Effect of m_pending.erase(seq). -/
def pendingErase (t : PendingTable) (seq : Nat) : PendingTable :=
  t.filter (fun e => e.1 != seq)

/-- Effect of m_pending.find(seq). -/
def pendingLookup (t : PendingTable) (seq : Nat) : Option PendingCall :=
  (t.find? (fun e => e.1 == seq)).map Prod.snd

/-- Client state (Client.h): the running flag, whether m_region is
non-null, the two rings of the shared region, the next sequence number and
the pending-call table.  Socket fds and threads live outside the model;
the success of socket operations is passed in as oracle arguments. -/
structure ClientState where
  running : Bool
  regionSome : Bool
  clientToServer : RingBuffer
  serverToClient : RingBuffer
  nextSeq : Nat
  pendingTable : PendingTable
deriving DecidableEq, Repr

/-- Shared frame-emission pattern of Client::call, Client::notify,
Service::notify and the response write in Service::connectionLoop: write
the encoded header and, only when that succeeded, write the payload; the
result flag is what the C++ short-circuit disjunction computes. -/
def writeFrame (rb : RingBuffer) (header : FrameHeader) (payload : List Nat) :
    Bool × RingBuffer :=
  let w1 := rb.write (encodeFrameHeader header)
  if !w1.1 then (false, w1.2)
  else w1.2.write payload

/-- Outcome of the condition-variable wait in Client::call: either the
predicate wait timed out, or the receiver completed the entry with the
given status and response payload before the deadline. -/
inductive WaitOutcome where
  | timeout : WaitOutcome
  | woken (status : Int) (response : List Nat) : WaitOutcome
deriving DecidableEq, Repr

/-- The REQUEST header Client::call builds for a given sequence number. -/
def requestHeader (serviceId methodId seq : Nat) (request : List Nat) :
    FrameHeader :=
  { version := PROTOCOL_VERSION, flags := FRAME_REQUEST, serviceId := serviceId,
    messageId := methodId, seq := seq, payloadBytes := request.length % U32Mod,
    aux := 0 }

/-- Client.cpp Client::call.  signalOk tells whether sendSignalByte on the
control socket would succeed; wait is the outcome of the condition-variable
wait.  Returns the status, what was stored into *response (none when it was
left untouched or response was null), and the post state. -/
def Client.call (st : ClientState) (serviceId methodId : Nat)
    (request : List Nat) (responseNonNull : Bool) (signalOk : Bool)
    (wait : WaitOutcome) : Int × Option (List Nat) × ClientState :=
  if !st.running || !st.regionSome then (RPC_ERR_DISCONNECTED, none, st)
  else
    let seq := st.nextSeq
    let st1 : ClientState := { st with nextSeq := (st.nextSeq + 1) % U32Mod }
    let wr := writeFrame st1.clientToServer
      (requestHeader serviceId methodId seq request) request
    let st2 : ClientState := { st1 with clientToServer := wr.2 }
    if !wr.1 then (RPC_ERR_RING_FULL, none, st2)
    else
      let st3 : ClientState :=
        { st2 with pendingTable :=
            pendingInsert st2.pendingTable seq ⟨false, RPC_SUCCESS, []⟩ }
      if !signalOk then (RPC_ERR_DISCONNECTED, none, st3)
      else
        match wait with
        | WaitOutcome.timeout =>
          (RPC_ERR_TIMEOUT, none,
            { st3 with pendingTable := pendingErase st3.pendingTable seq })
        | WaitOutcome.woken status response =>
          let out := if status = RPC_SUCCESS ∧ responseNonNull = true
            then some response else none
          (status, out,
            { st3 with pendingTable := pendingErase st3.pendingTable seq })

/-- Client.cpp Client::notify: same ring-full / disconnected policy as the
write part of call, and no pending entry. -/
def Client.notify (st : ClientState) (serviceId notifyId : Nat)
    (payload : List Nat) (signalOk : Bool) : Int × ClientState :=
  if !st.running || !st.regionSome then (RPC_ERR_DISCONNECTED, st)
  else
    let header : FrameHeader :=
      { version := PROTOCOL_VERSION, flags := FRAME_NOTIFY,
        serviceId := serviceId, messageId := notifyId, seq := 0,
        payloadBytes := payload.length % U32Mod, aux := 0 }
    let wr := writeFrame st.clientToServer header payload
    let st' : ClientState := { st with clientToServer := wr.2 }
    if !wr.1 then (RPC_ERR_RING_FULL, st')
    else if signalOk then (RPC_SUCCESS, st') else (RPC_ERR_DISCONNECTED, st')

/-- Client.cpp receiverLoop, RESPONSE branch: look the frame's seq up in
the pending table; when present, store the status (aux reinterpreted as a
signed integer) and the payload into the entry and mark it done.  An
unknown seq is ignored. -/
def Client.handleResponseFrame (t : PendingTable) (header : FrameHeader)
    (payload : List Nat) : PendingTable :=
  match pendingLookup t header.seq with
  | none => t
  | some _ => pendingInsert t header.seq ⟨true, toInt32 header.aux, payload⟩

/-- Client.cpp receiverLoop, after the loop exits: every pending entry is
marked done with RPC_ERR_DISCONNECTED and signalled; the table itself is
not cleared. -/
def Client.receiverExitPending (t : PendingTable) : PendingTable :=
  t.map (fun e => (e.1, { e.2 with status := RPC_ERR_DISCONNECTED, done := true }))

/-- Client.cpp disconnect, pending-table phase: every entry is failed with
RPC_ERR_STOPPED and signalled (first component), then m_pending.clear()
empties the table (second component). -/
def Client.disconnectPending (t : PendingTable) : PendingTable × PendingTable :=
  (t.map (fun e => (e.1, { e.2 with status := RPC_ERR_STOPPED, done := true })), [])

/-! Server side (src/RunLoop.cpp, Service part). -/

/-- Result of one Service::acceptLoop iteration after accept succeeded:
which ACK byte was sent (none when the handshake recv failed first),
whether the accepted socket fd and the received shm fd were closed, and
whether a connection was added to the list. -/
structure AcceptOutcome where
  ackSent : Option Nat
  closedClientFd : Bool
  closedShmFd : Bool
  connectionAdded : Bool
deriving DecidableEq, Repr

/-- Service.cpp acceptLoop, one iteration on a freshly accepted socket:
recvOk is whether recvFdWithVersion returned a positive count, shmFdValid
whether a descriptor arrived, version the peer's protocol version, mmapOk
whether mapping the region succeeds. -/
def Service.acceptHandshake (recvOk : Bool) (version : Nat)
    (shmFdValid : Bool) (mmapOk : Bool) : AcceptOutcome :=
  if !recvOk || !shmFdValid then ⟨none, true, false, false⟩
  else
    let ack := if version = PROTOCOL_VERSION then 1 else 0
    if ack = 0 then ⟨some 0, true, true, false⟩
    else if !mmapOk then ⟨some 1, true, true, false⟩
    else ⟨some 1, false, false, true⟩

/-- Client.cpp connect, ACK phase: first component is connect's return
value, second whether the client tore down (called disconnect).
recvPositive is whether the one-byte recv returned a positive count, ack
the received byte. -/
def Client.handleAck (recvPositive : Bool) (ack : Nat) : Bool × Bool :=
  if !recvPositive || ack == 0 then (false, true) else (true, false)

/-- A user request handler (Service.h RequestHandler): from messageId and
request payload to the returned status and the response payload the
handler filled in. -/
abbrev RequestHandler : Type := Nat → List Nat → Int × List Nat

/-- Service.cpp connectionLoop, REQUEST dispatch: when no handler is
installed the status is RPC_ERR_INVALID_METHOD and the response payload
stays empty; the RESPONSE header echoes serviceId, messageId and seq of
the request and carries the status in aux cast to uint32. -/
def Service.dispatchRequest (handler : Option RequestHandler)
    (header : FrameHeader) (payload : List Nat) : FrameHeader × List Nat :=
  let sr := match handler with
    | none => (RPC_ERR_INVALID_METHOD, ([] : List Nat))
    | some f => f header.messageId payload
  ({ version := PROTOCOL_VERSION, flags := FRAME_RESPONSE,
     serviceId := header.serviceId, messageId := header.messageId,
     seq := header.seq, payloadBytes := sr.2.length % U32Mod,
     aux := intToU32 sr.1 }, sr.2)

/-- Per-connection state visible to Service::notify: whether region is
non-null, the serverToClient ring, and whether sendSignalByte on the
connection's socket would succeed. -/
structure ConnState where
  hasRegion : Bool
  ring : RingBuffer
  signalOk : Bool
deriving DecidableEq, Repr

/-- The NOTIFY header Service::notify builds (seq and aux stay zero). -/
def notifyHeader (serviceId notifyId : Nat) (payload : List Nat) : FrameHeader :=
  { version := PROTOCOL_VERSION, flags := FRAME_NOTIFY, serviceId := serviceId,
    messageId := notifyId, seq := 0, payloadBytes := payload.length % U32Mod,
    aux := 0 }

/-- Loop body of Service.cpp Service::notify over the connection list:
skip connections whose region is null; write header then payload into
serverToClient, returning RPC_ERR_RING_FULL at the first connection where
either write fails; send the signal byte, returning RPC_ERR_DISCONNECTED
at the first connection where that fails; later connections are left
untouched. -/
def notifyLoop (header : FrameHeader) (payload : List Nat) :
    List ConnState → Int × List ConnState
  | [] => (RPC_SUCCESS, [])
  | c :: rest =>
    if !c.hasRegion then
      let r := notifyLoop header payload rest
      (r.1, c :: r.2)
    else
      let wr := writeFrame c.ring header payload
      let c' : ConnState := { c with ring := wr.2 }
      if !wr.1 then (RPC_ERR_RING_FULL, c' :: rest)
      else if !c.signalOk then (RPC_ERR_DISCONNECTED, c' :: rest)
      else
        let r := notifyLoop header payload rest
        (r.1, c' :: r.2)

/-- Service.cpp Service::notify under the connections mutex. -/
def Service.notify (conns : List ConnState) (serviceId notifyId : Nat)
    (payload : List Nat) : Int × List ConnState :=
  notifyLoop (notifyHeader serviceId notifyId payload) payload conns

/-- C1 (failing input): Client::call on an empty 32-byte ring with a
16-byte request.  The 24-byte header write succeeds and commits (head
moves 0 to 24), the payload write then fails for lack of space and call
returns RPC_ERR_RING_FULL — so, contrary to the claim, head was mutated by
a failed operation and a consumer observes a committed, decodable header
whose declared 16 payload bytes are not committed (only 24 readable
bytes): a torn frame. -/
theorem call_torn_frame_at_failing_input :
    (Client.call ⟨true, true, RingBuffer.init 32, RingBuffer.init 32, 1, []⟩
        1 7 (List.replicate 16 170) true true WaitOutcome.timeout).1 =
      RPC_ERR_RING_FULL ∧
    (Client.call ⟨true, true, RingBuffer.init 32, RingBuffer.init 32, 1, []⟩
        1 7 (List.replicate 16 170) true true
        WaitOutcome.timeout).2.2.clientToServer.head = 24 ∧
    (RingBuffer.init 32).head = 0 ∧
    (Client.call ⟨true, true, RingBuffer.init 32, RingBuffer.init 32, 1, []⟩
        1 7 (List.replicate 16 170) true true
        WaitOutcome.timeout).2.2.clientToServer.readAvailable = 24 ∧
    decodeFrameHeader
        (((Client.call ⟨true, true, RingBuffer.init 32, RingBuffer.init 32, 1, []⟩
            1 7 (List.replicate 16 170) true true
            WaitOutcome.timeout).2.2.clientToServer.peek 24).getD []) =
      some (requestHeader 1 7 1 (List.replicate 16 170)) := by decide

/-- C7: when the received version differs from PROTOCOL_VERSION, the
server sends the single ACK byte 0, closes both the accepted socket fd and
the received shm fd, and adds no connection; the client, receiving ACK 0,
tears down and connect returns false. -/
theorem version_mismatch_rejected (version : Nat) (mmapOk : Bool)
    (hv : version ≠ PROTOCOL_VERSION) :
    Service.acceptHandshake true version true mmapOk =
      ⟨some 0, true, true, false⟩ ∧
    Client.handleAck true 0 = (false, true) := by
  constructor
  · simp [Service.acceptHandshake, hv]
  · rfl

/-- Witness for C7 at the spec's scenario 2 input: client requests
version 2 while the server speaks version 1. -/
theorem version_mismatch_rejected_witness :
    (2 : Nat) ≠ PROTOCOL_VERSION ∧
    (Service.acceptHandshake true 2 true true = ⟨some 0, true, true, false⟩ ∧
      Client.handleAck true 0 = (false, true)) :=
  ⟨by decide, version_mismatch_rejected 2 true (by decide)⟩

/-- No element surviving the not-equal filter matches the key. -/
theorem find_after_filter_ne (t : PendingTable) (seq : Nat) :
    (t.filter (fun e => e.1 != seq)).find? (fun e => e.1 == seq) = none := by
  rw [List.find?_eq_none]
  intro x hx
  have hq := (List.mem_filter.mp hx).2
  simpa using hq

/-- find? skips a prefix in which nothing matches. -/
theorem find_append_of_none (p : Nat × PendingCall → Bool)
    (l1 l2 : PendingTable) (h : l1.find? p = none) :
    (l1 ++ l2).find? p = l2.find? p := by
  induction l1 with
  | nil => simp
  | cons a rest ih =>
    by_cases hpa : p a = true
    · rw [List.find?_cons_of_pos _ hpa] at h
      exact absurd h (by simp)
    · rw [List.find?_cons_of_neg _ hpa] at h
      rw [List.cons_append, List.find?_cons_of_neg _ hpa]
      exact ih h

/-- Looking a key up right after inserting it yields the inserted entry. -/
theorem pendingLookup_insert (t : PendingTable) (seq : Nat) (p : PendingCall) :
    pendingLookup (pendingInsert t seq p) seq = some p := by
  unfold pendingLookup pendingInsert
  rw [find_append_of_none _ _ _ (find_after_filter_ne t seq)]
  rw [List.find?_cons_of_pos _ (by simp)]
  rfl

/-- Looking a key up right after erasing it yields nothing. -/
theorem pendingLookup_erase (t : PendingTable) (seq : Nat) :
    pendingLookup (pendingErase t seq) seq = none := by
  unfold pendingLookup pendingErase
  rw [find_after_filter_ne]
  rfl

/-- C2 (counterexample): with a positive handler status 5 carried in the
response together with payload [42], Client.call returns 5 but leaves
*response untouched (none) although response was non-null — refuting the
claim that the payload is stored for any handler status. -/
theorem call_positive_status_drops_payload :
    (Client.call ⟨true, true, RingBuffer.init 64, RingBuffer.init 64, 1, []⟩
        1 7 [] true true (WaitOutcome.woken 5 [42])).1 = 5 ∧
    (Client.call ⟨true, true, RingBuffer.init 64, RingBuffer.init 64, 1, []⟩
        1 7 [] true true (WaitOutcome.woken 5 [42])).2.1 = none := by decide

/-- C2 (amended): if the receiver processes the matching RESPONSE frame
before the timeout, it stores aux (reinterpreted as a signed integer) and
the payload into the pending entry and marks it done; Client.call then
wakes, removes the entry and returns exactly that status — for any status,
including positive user-defined ones — but stores the response payload
into *response only when the status is RPC_SUCCESS and response is
non-null. -/
theorem call_woken_returns_status_verbatim (st : ClientState)
    (serviceId methodId : Nat) (request : List Nat) (responseNonNull : Bool)
    (status : Int) (response : List Nat)
    (hrun : st.running = true) (hreg : st.regionSome = true)
    (hwr : (writeFrame st.clientToServer
        (requestHeader serviceId methodId st.nextSeq request) request).1 = true) :
    (∀ (t : PendingTable) (hdr : FrameHeader) (payload : List Nat)
        (e : PendingCall), pendingLookup t hdr.seq = some e →
      pendingLookup (Client.handleResponseFrame t hdr payload) hdr.seq =
        some ⟨true, toInt32 hdr.aux, payload⟩) ∧
    (Client.call st serviceId methodId request responseNonNull true
        (WaitOutcome.woken status response)).1 = status ∧
    (Client.call st serviceId methodId request responseNonNull true
        (WaitOutcome.woken status response)).2.1 =
      (if status = RPC_SUCCESS ∧ responseNonNull = true
        then some response else none) ∧
    pendingLookup (Client.call st serviceId methodId request responseNonNull
        true (WaitOutcome.woken status response)).2.2.pendingTable
      st.nextSeq = none := by
  refine ⟨?_, ?_, ?_, ?_⟩
  · intro t hdr payload e he
    unfold Client.handleResponseFrame
    rw [he]
    exact pendingLookup_insert t hdr.seq ⟨true, toInt32 hdr.aux, payload⟩
  · simp [Client.call, hrun, hreg, hwr]
  · simp [Client.call, hrun, hreg, hwr]
  · simp [Client.call, hrun, hreg, hwr, pendingLookup_erase]

/-- Witness for C2 (amended) with status 5 and response payload [42]. -/
theorem call_woken_returns_status_verbatim_witness :
    (writeFrame (RingBuffer.init 64) (requestHeader 1 7 1 []) []).1 = true ∧
    (Client.call ⟨true, true, RingBuffer.init 64, RingBuffer.init 64, 1, []⟩
        1 7 [] true true (WaitOutcome.woken 5 [42])).1 = 5 :=
  ⟨by decide,
    (call_woken_returns_status_verbatim
        ⟨true, true, RingBuffer.init 64, RingBuffer.init 64, 1, []⟩
        1 7 [] true 5 [42] rfl rfl (by decide)).2.1⟩

/-- C6: when the header or payload write fails for lack of space,
Client.call returns RPC_ERR_RING_FULL and the pending-call table is
exactly as it was before the call — no PendingCall entry was inserted. -/
theorem ring_full_call_leaves_pending_untouched (st : ClientState)
    (serviceId methodId : Nat) (request : List Nat)
    (responseNonNull signalOk : Bool) (wait : WaitOutcome)
    (hrun : st.running = true) (hreg : st.regionSome = true)
    (hfail : (writeFrame st.clientToServer
        (requestHeader serviceId methodId st.nextSeq request) request).1 = false) :
    (Client.call st serviceId methodId request responseNonNull signalOk wait).1 =
      RPC_ERR_RING_FULL ∧
    (Client.call st serviceId methodId request responseNonNull signalOk
        wait).2.2.pendingTable = st.pendingTable := by
  constructor <;> simp [Client.call, hrun, hreg, hfail]

/-- Witness for C6: a 16-byte ring cannot hold the 24-byte header, so the
call fails ring-full with the table untouched. -/
theorem ring_full_call_leaves_pending_untouched_witness :
    (writeFrame (RingBuffer.init 16) (requestHeader 1 7 1 []) []).1 = false ∧
    ((Client.call ⟨true, true, RingBuffer.init 16, RingBuffer.init 16, 1, []⟩
        1 7 [] true true WaitOutcome.timeout).1 = RPC_ERR_RING_FULL ∧
      (Client.call ⟨true, true, RingBuffer.init 16, RingBuffer.init 16, 1, []⟩
        1 7 [] true true WaitOutcome.timeout).2.2.pendingTable = []) :=
  ⟨by decide,
    ring_full_call_leaves_pending_untouched
      ⟨true, true, RingBuffer.init 16, RingBuffer.init 16, 1, []⟩
      1 7 [] true true WaitOutcome.timeout rfl rfl (by decide)⟩

/-- C10 (counterexample): after receiverLoop exits, the pending entry for
seq 5 is still present in the table, only marked failed — receiver-loop
exit does not clear it. -/
theorem receiver_exit_does_not_remove_entry :
    pendingLookup (Client.receiverExitPending [(5, ⟨false, RPC_SUCCESS, []⟩)]) 5 =
      some ⟨true, RPC_ERR_DISCONNECTED, []⟩ := by decide

/-- C10 (amended): when the signal send fails after the entry was
inserted, call returns RPC_ERR_DISCONNECTED leaving the fresh entry in the
table; the entry stays until disconnect clears the table, while
receiver-loop exit only marks every entry failed (done with
RPC_ERR_DISCONNECTED) without removing any key. -/
theorem signal_fail_keeps_pending_entry (st : ClientState)
    (serviceId methodId : Nat) (request : List Nat) (responseNonNull : Bool)
    (wait : WaitOutcome)
    (hrun : st.running = true) (hreg : st.regionSome = true)
    (hwr : (writeFrame st.clientToServer
        (requestHeader serviceId methodId st.nextSeq request) request).1 = true) :
    (Client.call st serviceId methodId request responseNonNull false wait).1 =
      RPC_ERR_DISCONNECTED ∧
    pendingLookup (Client.call st serviceId methodId request responseNonNull
        false wait).2.2.pendingTable st.nextSeq = some ⟨false, RPC_SUCCESS, []⟩ ∧
    (∀ t : PendingTable, (Client.disconnectPending t).2 = []) ∧
    (∀ t : PendingTable,
      (Client.receiverExitPending t).map Prod.fst = t.map Prod.fst ∧
      ∀ e ∈ Client.receiverExitPending t,
        e.2.done = true ∧ e.2.status = RPC_ERR_DISCONNECTED) := by
  refine ⟨?_, ?_, fun t => rfl, fun t => ⟨?_, ?_⟩⟩
  · simp [Client.call, hrun, hreg, hwr]
  · simp [Client.call, hrun, hreg, hwr, pendingLookup_insert]
  · simp [Client.receiverExitPending, List.map_map]
  · intro e he
    obtain ⟨x, hx, rfl⟩ := List.mem_map.mp he
    exact ⟨rfl, rfl⟩

/-- Witness for C10 (amended): signal send fails on a 64-byte ring after a
successful frame write. -/
theorem signal_fail_keeps_pending_entry_witness :
    (writeFrame (RingBuffer.init 64) (requestHeader 1 7 1 []) []).1 = true ∧
    ((Client.call ⟨true, true, RingBuffer.init 64, RingBuffer.init 64, 1, []⟩
        1 7 [] true false WaitOutcome.timeout).1 = RPC_ERR_DISCONNECTED ∧
      pendingLookup (Client.call
          ⟨true, true, RingBuffer.init 64, RingBuffer.init 64, 1, []⟩
          1 7 [] true false WaitOutcome.timeout).2.2.pendingTable 1 =
        some ⟨false, RPC_SUCCESS, []⟩) :=
  ⟨by decide,
    ⟨(signal_fail_keeps_pending_entry
        ⟨true, true, RingBuffer.init 64, RingBuffer.init 64, 1, []⟩
        1 7 [] true WaitOutcome.timeout rfl rfl (by decide)).1,
      (signal_fail_keeps_pending_entry
        ⟨true, true, RingBuffer.init 64, RingBuffer.init 64, 1, []⟩
        1 7 [] true WaitOutcome.timeout rfl rfl (by decide)).2.1⟩⟩

/-- C8: with no handler installed, the server's RESPONSE frame for a
REQUEST echoes the request's seq and carries RPC_ERR_INVALID_METHOD (-4)
in aux as the uint32 value 4294967292, with an empty payload; the client
receiver reinterprets that aux as -4 when completing the pending entry,
and the woken call returns RPC_ERR_INVALID_METHOD as its status. -/
theorem no_handler_invalid_method (hdr : FrameHeader) (payload : List Nat)
    (st : ClientState) (serviceId methodId : Nat) (request : List Nat)
    (responseNonNull : Bool)
    (hrun : st.running = true) (hreg : st.regionSome = true)
    (hwr : (writeFrame st.clientToServer
        (requestHeader serviceId methodId st.nextSeq request) request).1 = true) :
    (Service.dispatchRequest none hdr payload).1.flags = FRAME_RESPONSE ∧
    (Service.dispatchRequest none hdr payload).1.seq = hdr.seq ∧
    (Service.dispatchRequest none hdr payload).1.aux = 4294967292 ∧
    (Service.dispatchRequest none hdr payload).2 = [] ∧
    toInt32 (Service.dispatchRequest none hdr payload).1.aux =
      RPC_ERR_INVALID_METHOD ∧
    (∀ (t : PendingTable) (e : PendingCall), pendingLookup t hdr.seq = some e →
      pendingLookup (Client.handleResponseFrame t
          (Service.dispatchRequest none hdr payload).1
          (Service.dispatchRequest none hdr payload).2) hdr.seq =
        some ⟨true, RPC_ERR_INVALID_METHOD, []⟩) ∧
    (Client.call st serviceId methodId request responseNonNull true
        (WaitOutcome.woken RPC_ERR_INVALID_METHOD [])).1 =
      RPC_ERR_INVALID_METHOD := by
  refine ⟨rfl, rfl, ?_, rfl, ?_, ?_, ?_⟩
  · show intToU32 RPC_ERR_INVALID_METHOD = 4294967292
    decide
  · show toInt32 (intToU32 RPC_ERR_INVALID_METHOD) = RPC_ERR_INVALID_METHOD
    decide
  · intro t e he
    unfold Client.handleResponseFrame
    rw [show (Service.dispatchRequest none hdr payload).1.seq = hdr.seq from rfl,
      he, pendingLookup_insert]
    show some (⟨true, toInt32 (intToU32 RPC_ERR_INVALID_METHOD), []⟩ : PendingCall) =
      some ⟨true, RPC_ERR_INVALID_METHOD, []⟩
    decide
  · simp [Client.call, hrun, hreg, hwr]

/-- Witness for C8 at a concrete request header and client state. -/
theorem no_handler_invalid_method_witness :
    (writeFrame (RingBuffer.init 64) (requestHeader 1 7 1 []) []).1 = true ∧
    (Client.call ⟨true, true, RingBuffer.init 64, RingBuffer.init 64, 1, []⟩
        1 7 [] true true (WaitOutcome.woken RPC_ERR_INVALID_METHOD [])).1 =
      RPC_ERR_INVALID_METHOD :=
  ⟨by decide,
    (no_handler_invalid_method ⟨1, 1, 1, 7, 9, 0, 0⟩ []
        ⟨true, true, RingBuffer.init 64, RingBuffer.init 64, 1, []⟩
        1 7 [] true rfl rfl (by decide)).2.2.2.2.2.2⟩

/-- Effect of a successful Service::notify visit on one connection. -/
def connDelivered (header : FrameHeader) (payload : List Nat)
    (c : ConnState) : ConnState :=
  if c.hasRegion then { c with ring := (writeFrame c.ring header payload).2 }
  else c

/-- A connection on which the Service::notify loop body succeeds: either it
is skipped for lack of a region, or both ring writes and the signal send
succeed. -/
def connOk (header : FrameHeader) (payload : List Nat) (c : ConnState) : Prop :=
  c.hasRegion = false ∨
    ((writeFrame c.ring header payload).1 = true ∧ c.signalOk = true)

/-- C9: Service::notify visits the connection list in order and returns at
the first connection that fails — RPC_ERR_RING_FULL when a ring write
failed, RPC_ERR_DISCONNECTED when the signal send failed.  Connections
before the failing one keep the frame written to them (and got their
signal byte), and connections after it are untouched: the notification is
delivered to a strict prefix of the list. -/
theorem notify_error_stops_at_first_failure (serviceId notifyId : Nat)
    (payload : List Nat) (cs1 cs2 : List ConnState) (c : ConnState)
    (hok : ∀ d ∈ cs1, connOk (notifyHeader serviceId notifyId payload) payload d)
    (hreg : c.hasRegion = true)
    (hfail : (writeFrame c.ring (notifyHeader serviceId notifyId payload)
        payload).1 = false ∨ c.signalOk = false) :
    Service.notify (cs1 ++ c :: cs2) serviceId notifyId payload =
      ((if (writeFrame c.ring (notifyHeader serviceId notifyId payload)
            payload).1 = false
          then RPC_ERR_RING_FULL else RPC_ERR_DISCONNECTED),
        cs1.map (connDelivered (notifyHeader serviceId notifyId payload) payload)
          ++ ({ c with ring := (writeFrame c.ring
              (notifyHeader serviceId notifyId payload) payload).2 } :: cs2)) := by
  unfold Service.notify
  induction cs1 with
  | nil =>
    simp only [List.nil_append, List.map_nil]
    rw [notifyLoop]
    rcases hfail with hf | hf
    · simp [hreg, hf]
    · by_cases hw : (writeFrame c.ring (notifyHeader serviceId notifyId payload)
          payload).1 = false
      · simp [hreg, hw]
      · simp only [Bool.not_eq_false] at hw
        simp [hreg, hw, hf]
  | cons d rest ih =>
    have hrest : ∀ x ∈ rest,
        connOk (notifyHeader serviceId notifyId payload) payload x :=
      fun x hx => hok x (by simp [hx])
    have hih := ih hrest
    cases hdreg : d.hasRegion with
    | false =>
      rw [List.cons_append, notifyLoop]
      simp only [hdreg, Bool.not_false, if_true]
      rw [hih]
      simp [connDelivered, hdreg]
    | true =>
      rcases hok d (by simp) with hnoreg | ⟨hw, hs⟩
      · rw [hdreg] at hnoreg
        exact absurd hnoreg (by simp)
      · rw [List.cons_append, notifyLoop]
        simp only [hdreg, hw, hs, Bool.not_true, Bool.not_false, if_false]
        rw [hih]
        simp [connDelivered, hdreg]
        exact hs

/-- Witness for C9: three connections, the second of which has a 16-byte
ring too small for the frame — notify fails ring-full there, the first
connection keeps its delivered frame and the third is untouched. -/
theorem notify_error_stops_at_first_failure_witness :
    (∀ d ∈ ([⟨true, RingBuffer.init 64, true⟩] : List ConnState),
        connOk (notifyHeader 1 99 [123]) [123] d) ∧
    Service.notify (([⟨true, RingBuffer.init 64, true⟩] : List ConnState) ++
        (⟨true, RingBuffer.init 16, true⟩ : ConnState) ::
          [⟨false, RingBuffer.init 8, true⟩]) 1 99 [123] =
      ((if (writeFrame (⟨true, RingBuffer.init 16, true⟩ : ConnState).ring
            (notifyHeader 1 99 [123]) [123]).1 = false
          then RPC_ERR_RING_FULL else RPC_ERR_DISCONNECTED),
        ([⟨true, RingBuffer.init 64, true⟩] : List ConnState).map
            (connDelivered (notifyHeader 1 99 [123]) [123]) ++
          ({ (⟨true, RingBuffer.init 16, true⟩ : ConnState) with
              ring := (writeFrame
                (⟨true, RingBuffer.init 16, true⟩ : ConnState).ring
                (notifyHeader 1 99 [123]) [123]).2 } ::
            [⟨false, RingBuffer.init 8, true⟩])) :=
  have hok1 : ∀ d ∈ ([⟨true, RingBuffer.init 64, true⟩] : List ConnState),
      connOk (notifyHeader 1 99 [123]) [123] d := by
    intro d hd
    simp only [List.mem_singleton] at hd
    subst hd
    exact Or.inr ⟨by decide, rfl⟩
  ⟨hok1,
    notify_error_stops_at_first_failure 1 99 [123]
      [⟨true, RingBuffer.init 64, true⟩] [⟨false, RingBuffer.init 8, true⟩]
      ⟨true, RingBuffer.init 16, true⟩ hok1 rfl (Or.inl (by decide))⟩

end MsRunloop
